import Mathlib

/-!
Verification of the mutual-match detection core of the KodoBashke app.

The data layer (tables `swipes` and `matches`, the trigger
`create_match_on_mutual_like`) is embedded from `fix-rls-policies.sql`
(schema) and `fix-matches.sql` (the final, recreated trigger function).
The client-side chat session, swipe handler and match-list aggregator are
embedded from `app/(tabs)/_layout.tsx`, the chat screen and
`app/(tabs)/matches.tsx`.

Identities (`uuid` columns) are modelled as `Nat`: the SQL only ever
compares them for equality and with `LEAST` / `GREATEST` / `<` under a
fixed total order, which `Nat` provides.
-/

namespace KodoBashke

/-- A row of the `swipes` table (`fix-rls-policies.sql`, lines 98–105).
`UNIQUE(user_id, target_user_id)` is enforced by `insertSwipe` below. -/
structure Swipe where
  user_id : Nat
  target_user_id : Nat
  is_like : Bool
  deriving DecidableEq, Repr

/-- A row of the `matches` table (`fix-rls-policies.sql`, lines 120–126).
The table has `CHECK (user1_id < user2_id)`, enforced by `insertMatchRow`
below, and no uniqueness constraint on the pair (only the `id` primary
key, which we omit: nothing in the verified code reads it). -/
structure MatchRow where
  user1_id : Nat
  user2_id : Nat
  deriving DecidableEq, Repr

/-- `EXISTS (SELECT 1 FROM swipes WHERE user_id = a AND target_user_id = b)`:
the predicate behind the `UNIQUE(user_id, target_user_id)` constraint. -/
def swipePairExists (l : List Swipe) (a b : Nat) : Bool :=
  l.any fun s => s.user_id == a && s.target_user_id == b

/-- `EXISTS (SELECT 1 FROM swipes WHERE user_id = a AND target_user_id = b
AND is_like = true)`. -/
def likeExists (l : List Swipe) (a b : Nat) : Bool :=
  l.any fun s => s.user_id == a && s.target_user_id == b && s.is_like

/-- The trigger's reverse-direction check (`fix-matches.sql`, lines 21–26):
`EXISTS (SELECT 1 FROM swipes WHERE user_id = NEW.target_user_id AND
target_user_id = NEW.user_id AND is_like = true)`. -/
def reverseLikeExists (l : List Swipe) (new : Swipe) : Bool :=
  likeExists l new.target_user_id new.user_id

/-- The trigger's duplicate check (`fix-matches.sql`, lines 28–32):
a `matches` row with `user1_id = LEAST(a,b)` and `user2_id = GREATEST(a,b)`. -/
def matchExists (ms : List MatchRow) (a b : Nat) : Bool :=
  ms.any fun m => m.user1_id == min a b && m.user2_id == max a b

/-- Errors the data layer can raise inside the trigger body. -/
inductive TriggerError where
  | checkViolation
  deriving DecidableEq, Repr

/-- `INSERT INTO matches (user1_id, user2_id) VALUES (LEAST(a,b), GREATEST(a,b))`
(`fix-matches.sql`, lines 36–40), subject to the table's
`CHECK (user1_id < user2_id)`. -/
def insertMatchRow (ms : List MatchRow) (a b : Nat) :
    Except TriggerError (List MatchRow) :=
  if min a b < max a b then .ok (ms ++ [⟨min a b, max a b⟩])
  else .error .checkViolation

/-- The body of `create_match_on_mutual_like` (`fix-matches.sql`,
lines 17–44): on a like, if the reverse like is visible and no match row
for the canonical pair exists yet, insert the canonical match row.
`visible` is what the trigger's queries can see: the committed `swipes`
rows plus the transaction's own freshly inserted row. -/
def triggerBody (visible : List Swipe) (ms : List MatchRow) (new : Swipe) :
    Except TriggerError (List MatchRow) :=
  if new.is_like then
    if reverseLikeExists visible new then
      if matchExists ms new.user_id new.target_user_id then .ok ms
      else insertMatchRow ms new.user_id new.target_user_id
    else .ok ms
  else .ok ms

/-- `create_match_on_mutual_like` with its `EXCEPTION WHEN OTHERS` handler
(`fix-matches.sql`, lines 45–49): any error from the body is logged and
swallowed, leaving `matches` untouched, and the trigger returns `NEW` so
the swipe insert proceeds. -/
def create_match_on_mutual_like (visible : List Swipe) (ms : List MatchRow)
    (new : Swipe) : List MatchRow :=
  match triggerBody visible ms new with
  | .ok ms' => ms'
  | .error _ => ms

/-- Errors an `INSERT INTO swipes` can raise. -/
inductive InsertError where
  | uniqueViolation
  deriving DecidableEq, Repr

/-- The committed contents of the two tables the match core touches. -/
structure DBState where
  swipes : List Swipe
  matchRows : List MatchRow
  deriving DecidableEq, Repr

/-- The empty database. -/
def DBState.init : DBState := ⟨[], []⟩

/-- A sequential `INSERT INTO swipes` running its `AFTER INSERT` trigger to
completion: the `UNIQUE(user_id, target_user_id)` constraint rejects a
duplicate ordered pair with a conflict error (and the trigger never runs);
otherwise the row is appended and `create_match_on_mutual_like` fires with
the new row visible to its queries. -/
def insertSwipe (st : DBState) (new : Swipe) : Except InsertError DBState :=
  if swipePairExists st.swipes new.user_id new.target_user_id then
    .error .uniqueViolation
  else
    let swipes' := st.swipes ++ [new]
    .ok ⟨swipes', create_match_on_mutual_like swipes' st.matchRows new⟩

/-- One step of a sequential history: a failed insert leaves the database
unchanged (the transaction rolls back). -/
def stepSwipe (st : DBState) (new : Swipe) : DBState :=
  match insertSwipe st new with
  | .ok st' => st'
  | .error _ => st

/-- Run a sequential history of swipe insertions from the empty database. -/
def runHistory (hist : List Swipe) : DBState :=
  hist.foldl stepSwipe DBState.init

/-- Number of `matches` rows carrying the canonical key of the unordered
pair `{a, b}`. -/
def pairRowCount (ms : List MatchRow) (a b : Nat) : Nat :=
  ms.countP fun m => m.user1_id == min a b && m.user2_id == max a b

/-! ### Chat session (chat screen: realtime handler, fetch, send) -/

/-- A row of the `messages` table as held by the chat screen
(`id`, `match_id`, `sender_id`, `content`, `created_at`). -/
structure Message where
  id : Nat
  match_id : Nat
  sender_id : Nat
  content : String
  created_at : Nat
  deriving DecidableEq, Repr

/-- The chat screen's realtime INSERT handler (chat screen, lines 59–68):
`if prev.some(m => m.id === newMsg.id) return prev; return [...prev, newMsg]`.
An already-known id leaves the list untouched; a new id is appended at the
end. -/
def handleRealtimeInsert (prev : List Message) (newMsg : Message) :
    List Message :=
  if prev.any fun m => m.id == newMsg.id then prev else prev ++ [newMsg]

/-- The `ORDER BY created_at ASC` comparison used by `fetchMessages`. -/
def byCreatedAt : Message → Message → Prop :=
  fun x y => x.created_at ≤ y.created_at

instance : DecidableRel byCreatedAt := fun x y =>
  Nat.decLe x.created_at y.created_at

instance : IsTotal Message byCreatedAt :=
  ⟨fun x y => Nat.le_total x.created_at y.created_at⟩

instance : IsTrans Message byCreatedAt :=
  ⟨fun _ _ _ => Nat.le_trans⟩

/-- `fetchMessages` (chat screen, lines 77–87): select all messages of the
match and order ascending by `created_at` (and by nothing else: the query
has no secondary sort key, so equal timestamps keep store order). -/
def fetchMessages (db : List Message) (matchId : Nat) : List Message :=
  List.insertionSort byCreatedAt (db.filter fun m => m.match_id == matchId)

/-- Ascending by message timestamp. -/
def sortedByTimestamp (l : List Message) : Prop :=
  List.Sorted byCreatedAt l

/-- Ascending by message timestamp with message id as tiebreak — the order
the claim asserts for the displayed sequence. -/
def byTimeThenId : Message → Message → Prop := fun x y =>
  x.created_at < y.created_at ∨ (x.created_at = y.created_at ∧ x.id ≤ y.id)

instance : DecidableRel byTimeThenId := fun x y => by
  unfold byTimeThenId
  infer_instance

/-- Ascending by (timestamp, id) lexicographically. -/
def sortedByTimestampId (l : List Message) : Prop :=
  List.Sorted byTimeThenId l

/-- The chat screen state touched by `sendMessage`. -/
structure ChatState where
  messages : List Message
  newMessage : String
  sending : Bool
  deriving DecidableEq, Repr

/-- JavaScript's `String.prototype.trim()` as called on the draft
(`newMessage.trim()`): strip leading and trailing whitespace. -/
def jsTrim (s : String) : String :=
  ⟨((s.data.dropWhile Char.isWhitespace).reverse.dropWhile
      Char.isWhitespace).reverse⟩

/-- `messageSchema` (`lib/validators`, lines 140–143): content between 1
and 500 characters, `match_id` a valid uuid (abstracted as a flag). -/
def messageSchemaCheck (content : String) (matchIdValid : Bool) : Bool :=
  (1 ≤ content.length && content.length ≤ 500) && matchIdValid

/-- `sendMessage` (chat screen, lines 123–167). Returns the updated screen
state and whether `captureException` was invoked. Mirrors the source: early
return while `sending`, on empty trimmed content, on schema failure, or on
rate-limit denial; otherwise the input field is cleared and the insert is
attempted; on insert failure the trimmed draft is written back into the
input field and the failure is reported; `sending` is reset in `finally`;
the message list is never touched. -/
def sendMessage (st : ChatState) (matchIdValid rateAllowed insertFails : Bool) :
    ChatState × Bool :=
  if st.sending then (st, false)
  else
    let content := jsTrim st.newMessage
    if content.isEmpty then (st, false)
    else if !(messageSchemaCheck content matchIdValid) then (st, false)
    else if !rateAllowed then (st, false)
    else if insertFails then
      ({ st with newMessage := content, sending := false }, true)
    else ({ st with newMessage := "", sending := false }, false)

/-! ### Discover tab (swipe write path) -/

/-- `fetchProfiles` (Discover tab, lines 842–878): the candidate deck
excludes the authenticated user's own id (`.neq('id', user.id)`) and every
already-swiped target. -/
def fetchProfilesCandidates (allIds : List Nat) (userId : Nat)
    (swipedIds : List Nat) : List Nat :=
  allIds.filter fun p => p != userId && !(swipedIds.contains p)

/-- `handleSwipe` (Discover tab, lines 880–918): when the current index
points at a candidate, insert a swipe from the authenticated user to that
candidate. -/
def handleSwipeInsert (candidates : List Nat) (idx userId : Nat)
    (isLike : Bool) : Option Swipe :=
  match candidates[idx]? with
  | some t => some ⟨userId, t, isLike⟩
  | none => none

/-! ### Match list aggregator (`app/(tabs)/matches.tsx`) -/

/-- A `matches` row as fetched by the aggregator. -/
structure MatchData where
  id : Nat
  user1_id : Nat
  user2_id : Nat
  deriving DecidableEq, Repr

/-- A `messages` row as fetched by the aggregator's second query. -/
structure MsgRow where
  match_id : Nat
  content : String
  created_at : Nat
  sender_id : Nat
  deriving DecidableEq, Repr

/-- `matches.tsx`, lines 87 and 96: the participant who is not the
authenticated user. -/
def otherUserId (m : MatchData) (userId : Nat) : Nat :=
  if m.user1_id == userId then m.user2_id else m.user1_id

/-- One iteration of the `messagesData.forEach` loop (`matches.tsx`,
lines 80–93): look the message's match up in the fetched match list and,
when the sender is the other participant, increment that match's entry in
`unreadCountByMatch`. -/
def unreadStep (data : List MatchData) (userId : Nat) (acc : Nat → Nat)
    (msg : MsgRow) : Nat → Nat :=
  match data.find? fun m => m.id == msg.match_id with
  | some m =>
      if msg.sender_id == otherUserId m userId then
        fun k => if k == msg.match_id then acc k + 1 else acc k
      else acc
  | none => acc

/-- The `unreadCountByMatch` map built by `fetchMatches` (`matches.tsx`,
lines 77–115), as a total function defaulting to 0 (`.get(id) || 0`). -/
def unreadCountByMatch (data : List MatchData) (userId : Nat)
    (msgs : List MsgRow) : Nat → Nat :=
  msgs.foldl (unreadStep data userId) fun _ => 0

/-! ### Concurrent execution of two mutually liking swipe transactions

Two transactions: transaction 1 inserts the swipe `a likes b`, transaction
2 inserts `b likes a`. Each consists of its row insert, its trigger run
and its commit, in that order, and the steps of the two transactions may
interleave arbitrarily. Under read-committed visibility each trigger query
sees the committed rows plus its own transaction's pending rows — not the
other transaction's uncommitted rows. -/

/-- A step of one of the two concurrent swipe transactions. -/
inductive TxStep where
  | insert1 | trigger1 | commit1 | insert2 | trigger2 | commit2
  deriving DecidableEq, Repr

/-- Committed table contents plus each transaction's pending rows. -/
structure ConcState where
  committedSwipes : List Swipe
  committedMatches : List MatchRow
  pend1 : List Swipe
  pendM1 : List MatchRow
  pend2 : List Swipe
  pendM2 : List MatchRow
  deriving DecidableEq, Repr

/-- Both tables empty, nothing pending. -/
def ConcState.init : ConcState := ⟨[], [], [], [], [], []⟩

/-- Apply one transaction step for the scenario `a likes b` (transaction 1)
concurrent with `b likes a` (transaction 2). A trigger step runs
`create_match_on_mutual_like` over what its transaction can see and keeps
any newly derived match row pending; a commit publishes the transaction's
pending rows. -/
def applyStep (a b : Nat) (st : ConcState) : TxStep → ConcState
  | .insert1 => { st with pend1 := st.pend1 ++ [⟨a, b, true⟩] }
  | .trigger1 =>
      let visible := st.committedSwipes ++ st.pend1
      let visM := st.committedMatches ++ st.pendM1
      let ms' := create_match_on_mutual_like visible visM ⟨a, b, true⟩
      { st with pendM1 := st.pendM1 ++ ms'.drop visM.length }
  | .commit1 =>
      ⟨st.committedSwipes ++ st.pend1, st.committedMatches ++ st.pendM1,
       [], [], st.pend2, st.pendM2⟩
  | .insert2 => { st with pend2 := st.pend2 ++ [⟨b, a, true⟩] }
  | .trigger2 =>
      let visible := st.committedSwipes ++ st.pend2
      let visM := st.committedMatches ++ st.pendM2
      let ms' := create_match_on_mutual_like visible visM ⟨b, a, true⟩
      { st with pendM2 := st.pendM2 ++ ms'.drop visM.length }
  | .commit2 =>
      ⟨st.committedSwipes ++ st.pend2, st.committedMatches ++ st.pendM2,
       st.pend1, st.pendM1, [], []⟩

/-- Run an interleaving of the two transactions from the empty database. -/
def runSchedule (a b : Nat) (sched : List TxStep) : ConcState :=
  sched.foldl (applyStep a b) ConcState.init

/-- A schedule is a legal interleaving when each transaction's three steps
occur exactly once and in program order. -/
def isInterleaving (sched : List TxStep) : Prop :=
  sched.filter (fun s =>
      decide (s = .insert1 ∨ s = .trigger1 ∨ s = .commit1)) =
    [.insert1, .trigger1, .commit1] ∧
  sched.filter (fun s =>
      decide (s = .insert2 ∨ s = .trigger2 ∨ s = .commit2)) =
    [.insert2, .trigger2, .commit2]

instance (sched : List TxStep) : Decidable (isInterleaving sched) := by
  unfold isInterleaving
  infer_instance

lemma likeExists_append (l : List Swipe) (s : Swipe) (a b : Nat) :
    likeExists (l ++ [s]) a b =
      (likeExists l a b || (s.user_id == a && s.target_user_id == b && s.is_like)) := by
  simp [likeExists]

lemma matchExists_append (ms : List MatchRow) (k : MatchRow) (a b : Nat) :
    matchExists (ms ++ [k]) a b =
      (matchExists ms a b || (k.user1_id == min a b && k.user2_id == max a b)) := by
  simp [matchExists]

lemma matchExists_comm (ms : List MatchRow) (a b : Nat) :
    matchExists ms a b = matchExists ms b a := by
  unfold matchExists
  rw [Nat.min_comm a b, Nat.max_comm a b]

lemma pairRowCount_comm (ms : List MatchRow) (a b : Nat) :
    pairRowCount ms a b = pairRowCount ms b a := by
  unfold pairRowCount
  rw [Nat.min_comm a b, Nat.max_comm a b]

lemma matchExists_false_iff_count_zero (ms : List MatchRow) (a b : Nat) :
    matchExists ms a b = false ↔ pairRowCount ms a b = 0 := by
  simp [matchExists, pairRowCount, List.countP_eq_zero, List.any_eq_true]

/-- Full case analysis of the final trigger function: either it leaves
`matches` untouched (non-like, no reverse like, match already present, or
the self-pair `CHECK` violation swallowed by the handler), or it appends
exactly the canonical row for the new swipe's pair. -/
lemma create_match_spec (visible : List Swipe) (ms : List MatchRow) (new : Swipe) :
    (new.is_like = false ∧ create_match_on_mutual_like visible ms new = ms) ∨
    (new.is_like = true ∧ reverseLikeExists visible new = false ∧
      create_match_on_mutual_like visible ms new = ms) ∨
    (new.is_like = true ∧ reverseLikeExists visible new = true ∧
      matchExists ms new.user_id new.target_user_id = true ∧
      create_match_on_mutual_like visible ms new = ms) ∨
    (new.is_like = true ∧ reverseLikeExists visible new = true ∧
      matchExists ms new.user_id new.target_user_id = false ∧
      new.user_id = new.target_user_id ∧
      create_match_on_mutual_like visible ms new = ms) ∨
    (new.is_like = true ∧ reverseLikeExists visible new = true ∧
      matchExists ms new.user_id new.target_user_id = false ∧
      new.user_id ≠ new.target_user_id ∧
      create_match_on_mutual_like visible ms new =
        ms ++ [⟨min new.user_id new.target_user_id,
                max new.user_id new.target_user_id⟩]) := by
  cases h1 : new.is_like with
  | false =>
    exact Or.inl ⟨rfl, by simp [create_match_on_mutual_like, triggerBody, h1]⟩
  | true =>
    cases h2 : reverseLikeExists visible new with
    | false =>
      exact Or.inr (Or.inl ⟨rfl, rfl,
        by simp [create_match_on_mutual_like, triggerBody, h1, h2]⟩)
    | true =>
      cases h3 : matchExists ms new.user_id new.target_user_id with
      | true =>
        refine Or.inr (Or.inr (Or.inl ⟨rfl, rfl, rfl, ?_⟩))
        simp [create_match_on_mutual_like, triggerBody, h1, h2, h3]
      | false =>
        by_cases h4 : new.user_id = new.target_user_id
        · refine Or.inr (Or.inr (Or.inr (Or.inl ⟨rfl, rfl, rfl, h4, ?_⟩)))
          have hmin : ¬ min new.user_id new.target_user_id <
              max new.user_id new.target_user_id := by omega
          simp [create_match_on_mutual_like, triggerBody, insertMatchRow,
            h1, h2, h3, hmin]
        · refine Or.inr (Or.inr (Or.inr (Or.inr ⟨rfl, rfl, rfl, h4, ?_⟩)))
          have hmin : min new.user_id new.target_user_id <
              max new.user_id new.target_user_id := by omega
          simp [create_match_on_mutual_like, triggerBody, insertMatchRow,
            h1, h2, h3, hmin]

/-- The invariant maintained by every sequential swipe insertion:
(1) every match row is strictly ordered (the table `CHECK`);
(2) for distinct users, a canonical match row exists iff both directed
likes exist;
(3) at most one match row per unordered pair. -/
def Inv (st : DBState) : Prop :=
  (∀ m ∈ st.matchRows, m.user1_id < m.user2_id) ∧
  (∀ a b : Nat, a ≠ b →
    (matchExists st.matchRows a b = true ↔
      likeExists st.swipes a b = true ∧ likeExists st.swipes b a = true)) ∧
  (∀ a b : Nat, pairRowCount st.matchRows a b ≤ 1)

lemma Inv_init : Inv DBState.init := by
  refine ⟨?_, ?_, ?_⟩
  · intro m hm; simp [DBState.init] at hm
  · intro a b _
    simp [DBState.init, matchExists, likeExists]
  · intro a b; simp [DBState.init, pairRowCount]

lemma stepSwipe_dup (st : DBState) (new : Swipe)
    (hdup : swipePairExists st.swipes new.user_id new.target_user_id = true) :
    stepSwipe st new = st := by
  simp [stepSwipe, insertSwipe, hdup]

lemma stepSwipe_not_dup (st : DBState) (new : Swipe)
    (hdup : swipePairExists st.swipes new.user_id new.target_user_id = false) :
    stepSwipe st new =
      ⟨st.swipes ++ [new],
       create_match_on_mutual_like (st.swipes ++ [new]) st.matchRows new⟩ := by
  simp [stepSwipe, insertSwipe, hdup]

lemma matchExists_ne (ms : List MatchRow)
    (hlt : ∀ m ∈ ms, m.user1_id < m.user2_id) {a b : Nat}
    (hm : matchExists ms a b = true) : a ≠ b := by
  simp only [matchExists, List.any_eq_true, Bool.and_eq_true, beq_iff_eq] at hm
  obtain ⟨m, hmem, e1, e2⟩ := hm
  have := hlt m hmem
  omega

lemma minmax_pair_cases {a b x y : Nat} (h1 : min x y = min a b)
    (h2 : max x y = max a b) :
    (x = a ∧ y = b) ∨ (x = b ∧ y = a) := by
  omega

/-- The invariant is preserved by each sequential swipe insertion. -/
lemma Inv_stepSwipe (st : DBState) (new : Swipe) (h : Inv st) :
    Inv (stepSwipe st new) := by
  obtain ⟨hlt, hiff, hcnt⟩ := h
  obtain ⟨x, y, l⟩ := new
  by_cases hdup : swipePairExists st.swipes x y = true
  · rw [stepSwipe_dup st _ hdup]
    exact ⟨hlt, hiff, hcnt⟩
  · rw [stepSwipe_not_dup st _ (by simpa using hdup)]
    rcases create_match_spec (st.swipes ++ [⟨x, y, l⟩]) st.matchRows ⟨x, y, l⟩ with
      ⟨hl, hms⟩ | ⟨hl, hrev, hms⟩ | ⟨hl, hrev, hm, hms⟩ |
      ⟨hl, hrev, hm, heq, hms⟩ | ⟨hl, hrev, hm, hne, hms⟩
    -- Case A: the inserted swipe is a pass; matches untouched.
    · rw [hms]
      simp only at hl
      subst hl
      refine ⟨hlt, ?_, hcnt⟩
      intro a b hab
      rw [likeExists_append, likeExists_append]
      simp only [Bool.or_eq_true, Bool.and_eq_true, beq_iff_eq, Bool.and_eq_true,
        Bool.false_eq_true, and_false, or_false]
      exact hiff a b hab
    -- Case B: a like, but the reverse like is absent; matches untouched.
    · rw [hms]
      simp only at hl hrev
      subst hl
      rw [show reverseLikeExists (st.swipes ++ [⟨x, y, true⟩]) ⟨x, y, true⟩ =
            likeExists (st.swipes ++ [⟨x, y, true⟩]) y x from rfl,
        likeExists_append] at hrev
      simp only [Bool.or_eq_false_iff, Bool.and_eq_false_iff] at hrev
      obtain ⟨hr1, hr2⟩ := hrev
      have hr2' : x ≠ y := by
        intro hxy
        subst hxy
        simp at hr2
      refine ⟨hlt, ?_, hcnt⟩
      intro a b hab
      rw [likeExists_append, likeExists_append]
      simp only [Bool.or_eq_true, Bool.and_eq_true, beq_iff_eq, and_true]
      constructor
      · intro hM
        obtain ⟨u, v⟩ := (hiff a b hab).mp hM
        exact ⟨Or.inl u, Or.inl v⟩
      · rintro ⟨hA | ⟨e1, e2⟩, hB | ⟨e3, e4⟩⟩
        · exact (hiff a b hab).mpr ⟨hA, hB⟩
        · rw [← e4, ← e3] at hA
          simp [hr1] at hA
        · rw [← e1, ← e2] at hB
          simp [hr1] at hB
        · exact absurd (e1.symm.trans e3) hab
    -- Case C: a mutual like whose match row already exists; matches untouched.
    · rw [hms]
      simp only at hl hrev hm
      subst hl
      have hxy : x ≠ y := matchExists_ne st.matchRows hlt hm
      refine ⟨hlt, ?_, hcnt⟩
      intro a b hab
      rw [likeExists_append, likeExists_append]
      simp only [Bool.or_eq_true, Bool.and_eq_true, beq_iff_eq, and_true]
      constructor
      · intro hM
        obtain ⟨u, v⟩ := (hiff a b hab).mp hM
        exact ⟨Or.inl u, Or.inl v⟩
      · rintro ⟨hA | ⟨e1, e2⟩, hB | ⟨e3, e4⟩⟩
        · exact (hiff a b hab).mpr ⟨hA, hB⟩
        · rw [← e4, ← e3, matchExists_comm]
          exact hm
        · rw [← e1, ← e2]
          exact hm
        · exact absurd (e1.symm.trans e3) hab
    -- Case D: self-like; the CHECK violation is swallowed, matches untouched.
    · rw [hms]
      simp only at hl hm heq
      subst hl
      subst heq
      refine ⟨hlt, ?_, hcnt⟩
      intro a b hab
      rw [likeExists_append, likeExists_append]
      simp only [Bool.or_eq_true, Bool.and_eq_true, beq_iff_eq, and_true]
      constructor
      · intro hM
        obtain ⟨u, v⟩ := (hiff a b hab).mp hM
        exact ⟨Or.inl u, Or.inl v⟩
      · rintro ⟨hA | ⟨e1, e2⟩, hB | ⟨e3, e4⟩⟩
        · exact (hiff a b hab).mpr ⟨hA, hB⟩
        · exact absurd (e4.symm.trans e3) hab
        · exact absurd (e1.symm.trans e2) hab
        · exact absurd (e1.symm.trans e2) hab
    -- Case E: a fresh mutual like; the canonical row is appended.
    · rw [hms]
      simp only at hl hrev hm hne
      subst hl
      rw [show reverseLikeExists (st.swipes ++ [⟨x, y, true⟩]) ⟨x, y, true⟩ =
            likeExists (st.swipes ++ [⟨x, y, true⟩]) y x from rfl,
        likeExists_append] at hrev
      simp only [Bool.or_eq_true, Bool.and_eq_true, beq_iff_eq, and_true] at hrev
      have hLyx : likeExists st.swipes y x = true := by
        rcases hrev with h | ⟨h1, h2⟩
        · exact h
        · exact absurd h1 hne
      refine ⟨?_, ?_, ?_⟩
      · intro m hm'
        simp only [List.mem_append, List.mem_singleton] at hm'
        rcases hm' with h | rfl
        · exact hlt m h
        · simp only
          omega
      · intro a b hab
        rw [likeExists_append, likeExists_append, matchExists_append]
        simp only [Bool.or_eq_true, Bool.and_eq_true, beq_iff_eq, and_true]
        constructor
        · rintro (hM | ⟨e1, e2⟩)
          · obtain ⟨u, v⟩ := (hiff a b hab).mp hM
            exact ⟨Or.inl u, Or.inl v⟩
          · rcases minmax_pair_cases e1 e2 with ⟨rfl, rfl⟩ | ⟨rfl, rfl⟩
            · exact ⟨Or.inr ⟨rfl, rfl⟩, Or.inl hLyx⟩
            · exact ⟨Or.inl hLyx, Or.inr ⟨rfl, rfl⟩⟩
        · rintro ⟨hA | ⟨e1, e2⟩, hB | ⟨e3, e4⟩⟩
          · exact Or.inl ((hiff a b hab).mpr ⟨hA, hB⟩)
          · refine Or.inr ⟨?_, ?_⟩ <;> omega
          · refine Or.inr ⟨?_, ?_⟩ <;> omega
          · exact absurd (e1.symm.trans e3) hab
      · intro a b
        show pairRowCount (st.matchRows ++ [⟨min x y, max x y⟩]) a b ≤ 1
        rw [pairRowCount, List.countP_append]
        by_cases hk : (min x y : Nat) = min a b ∧ (max x y : Nat) = max a b
        · have h0 : List.countP
              (fun m => m.user1_id == min a b && m.user2_id == max a b)
              st.matchRows = 0 := by
            rw [← hk.1, ← hk.2]
            exact (matchExists_false_iff_count_zero _ _ _).mp hm
          have h1 : List.countP
              (fun m => m.user1_id == min a b && m.user2_id == max a b)
              [(⟨min x y, max x y⟩ : MatchRow)] ≤ 1 := by
            have := List.countP_le_length
              (p := fun m : MatchRow => m.user1_id == min a b && m.user2_id == max a b)
              (l := [(⟨min x y, max x y⟩ : MatchRow)])
            simpa using this
          omega
        · have hpk : ((fun m : MatchRow => m.user1_id == min a b && m.user2_id == max a b)
              (⟨min x y, max x y⟩ : MatchRow)) = false := by
            simp only [Bool.and_eq_false_iff, beq_eq_false_iff_ne, ne_eq]
            by_cases hc1 : (min x y : Nat) = min a b
            · exact Or.inr (fun hc2 => hk ⟨hc1, hc2⟩)
            · exact Or.inl hc1
          have h1 : List.countP
              (fun m => m.user1_id == min a b && m.user2_id == max a b)
              [(⟨min x y, max x y⟩ : MatchRow)] = 0 := by
            simp [List.countP_cons, hpk]
          have := hcnt a b
          rw [pairRowCount] at this
          omega

/-- The invariant holds in every reachable sequential database state. -/
lemma Inv_runHistory (hist : List Swipe) : Inv (runHistory hist) := by
  rw [runHistory]
  induction hist using List.reverseRecOn with
  | nil => exact Inv_init
  | append_singleton xs s ih =>
    rw [List.foldl_append]
    exact Inv_stepSwipe _ s ih

/-- C2: for distinct users `a` and `b` and any sequential history of swipe
insertions (each running its trigger to completion), a match row with the
canonical key for `{a, b}` exists iff both directed likes exist; at most
one `matches` row carries that pair, and any row whose participants are
`{a, b}` carries the canonical key `(min a b, max a b)` — regardless of
the order of insertions in the history. -/
theorem match_iff_mutual_like_sequential (hist : List Swipe) (a b : Nat)
    (hab : a ≠ b) :
    (matchExists (runHistory hist).matchRows a b = true ↔
      likeExists (runHistory hist).swipes a b = true ∧
      likeExists (runHistory hist).swipes b a = true) ∧
    pairRowCount (runHistory hist).matchRows a b ≤ 1 ∧
    (∀ m ∈ (runHistory hist).matchRows,
      (m.user1_id = a ∧ m.user2_id = b) ∨ (m.user1_id = b ∧ m.user2_id = a) →
      m.user1_id = min a b ∧ m.user2_id = max a b) := by
  obtain ⟨hlt, hiff, hcnt⟩ := Inv_runHistory hist
  refine ⟨hiff a b hab, hcnt a b, ?_⟩
  intro m hm hor
  have := hlt m hm
  rcases hor with ⟨e1, e2⟩ | ⟨e1, e2⟩ <;> omega

/-- Witness for `match_iff_mutual_like_sequential`: after the history
`[1 likes 2, 2 likes 1]` the canonical match row for `{1, 2}` exists. -/
theorem match_iff_mutual_like_sequential_witness :
    matchExists (runHistory [⟨1, 2, true⟩, ⟨2, 1, true⟩]).matchRows 1 2 = true :=
  (match_iff_mutual_like_sequential [⟨1, 2, true⟩, ⟨2, 1, true⟩] 1 2
    (by decide)).1.mpr (by decide)

/-- C3: in every sequentially reachable database state, every `matches`
row satisfies `user1_id < user2_id` — never equal and never reversed. -/
theorem match_rows_strictly_ordered (hist : List Swipe) :
    ∀ m ∈ (runHistory hist).matchRows, m.user1_id < m.user2_id :=
  (Inv_runHistory hist).1

/-- Witness for `match_rows_strictly_ordered` at the mutual-like history
`[1 likes 2, 2 likes 1]`, whose single match row is `(1, 2)`. -/
theorem match_rows_strictly_ordered_witness :
    (⟨1, 2⟩ : MatchRow).user1_id < (⟨1, 2⟩ : MatchRow).user2_id :=
  match_rows_strictly_ordered [⟨1, 2, true⟩, ⟨2, 1, true⟩] ⟨1, 2⟩ (by decide)

/-- C5: re-submitting a swipe for an ordered `(actor, target)` pair that
already has a swipe row fails with a unique-constraint conflict and leaves
the database unchanged: no second swipe row, no second match row, and the
first swipe row untouched. -/
theorem duplicate_swipe_conflict (st : DBState) (a b : Nat) (l l' : Bool)
    (hfirst : (⟨a, b, l⟩ : Swipe) ∈ st.swipes) :
    insertSwipe st ⟨a, b, l'⟩ = .error .uniqueViolation ∧
    stepSwipe st ⟨a, b, l'⟩ = st := by
  have hdup : swipePairExists st.swipes a b = true := by
    simp only [swipePairExists, List.any_eq_true, Bool.and_eq_true, beq_iff_eq]
    exact ⟨⟨a, b, l⟩, hfirst, rfl, rfl⟩
  constructor
  · simp [insertSwipe, hdup]
  · exact stepSwipe_dup st ⟨a, b, l'⟩ hdup

/-- Witness for `duplicate_swipe_conflict`: re-liking after `1 likes 2`
is rejected with a conflict. -/
theorem duplicate_swipe_conflict_witness :
    insertSwipe (runHistory [⟨1, 2, true⟩]) ⟨1, 2, true⟩ =
      .error .uniqueViolation :=
  (duplicate_swipe_conflict (runHistory [⟨1, 2, true⟩]) 1 2 true true
    (by decide)).1

/-- C9: the trigger's `EXCEPTION WHEN OTHERS` handler means a swipe insert
always commits the swipe row (when the pair is fresh), and whenever the
trigger body raises any error while deriving or inserting the match, the
error is swallowed and `matches` is left untouched — the swipe write is
never aborted by match derivation. -/
theorem trigger_error_suppressed (st : DBState) (new : Swipe)
    (hdup : swipePairExists st.swipes new.user_id new.target_user_id = false) :
    (stepSwipe st new).swipes = st.swipes ++ [new] ∧
    (∀ e, triggerBody (st.swipes ++ [new]) st.matchRows new = .error e →
      (stepSwipe st new).matchRows = st.matchRows) := by
  rw [stepSwipe_not_dup st new hdup]
  refine ⟨rfl, ?_⟩
  intro e he
  simp only
  unfold create_match_on_mutual_like
  rw [he]

/-- Witness for `trigger_error_suppressed`: a self-like raises the match
CHECK violation inside the trigger, yet the swipe row still commits and
`matches` stays empty. -/
theorem trigger_error_suppressed_witness :
    (stepSwipe DBState.init ⟨1, 1, true⟩).swipes =
      DBState.init.swipes ++ [⟨1, 1, true⟩] ∧
    (stepSwipe DBState.init ⟨1, 1, true⟩).matchRows = DBState.init.matchRows :=
  ⟨(trigger_error_suppressed DBState.init ⟨1, 1, true⟩ (by decide)).1,
   (trigger_error_suppressed DBState.init ⟨1, 1, true⟩ (by decide)).2
     .checkViolation rfl⟩

/-- C1 [divergence]: under the legal interleaving where both transactions
insert their swipe and run their trigger before either commits (each
trigger's reverse-like query sees only committed rows plus its own
pending row), both mutual likes commit and ZERO match rows result —
contradicting the claim that exactly one match row always results. The
schema has no uniqueness constraint on the pair, and the trigger's
check-then-insert sees nothing to react to. A fully sequential
interleaving of the same two transactions yields exactly one canonical
row, which is what `fix-matches.sql` manually repairs for a concrete
user pair. -/
theorem concurrent_mutual_like_can_lose_match :
    isInterleaving
      [.insert1, .insert2, .trigger1, .trigger2, .commit1, .commit2] ∧
    (runSchedule 1 2
      [.insert1, .insert2, .trigger1, .trigger2, .commit1,
        .commit2]).committedMatches = [] ∧
    likeExists (runSchedule 1 2
      [.insert1, .insert2, .trigger1, .trigger2, .commit1,
        .commit2]).committedSwipes 1 2 = true ∧
    likeExists (runSchedule 1 2
      [.insert1, .insert2, .trigger1, .trigger2, .commit1,
        .commit2]).committedSwipes 2 1 = true ∧
    (runSchedule 1 2
      [.insert1, .trigger1, .commit1, .insert2, .trigger2,
        .commit2]).committedMatches = [⟨1, 2⟩] := by
  decide

/-- C4 [counterexample]: nothing in the swipe write path rejects
actor = target — a self-swipe insert is accepted by the `swipes` table
(which has no such constraint) and a self-swipe row is created; only the
derived match is stopped (by the matches CHECK, swallowed in the
trigger). -/
theorem self_swipe_accepted :
    insertSwipe DBState.init ⟨7, 7, true⟩ = .ok ⟨[⟨7, 7, true⟩], []⟩ := rfl

/-- C4 [amended]: no explicit actor = target rejection exists in swipe
creation; instead the Discover deck excludes the user's own profile id
(`.neq('id', user.id)`), so every swipe `handleSwipe` actually issues has
actor distinct from target. -/
theorem discover_swipe_never_self (allIds swipedIds : List Nat)
    (userId idx : Nat) (isLike : Bool) (s : Swipe)
    (h : handleSwipeInsert (fetchProfilesCandidates allIds userId swipedIds)
        idx userId isLike = some s) :
    s.user_id = userId ∧ s.user_id ≠ s.target_user_id := by
  unfold handleSwipeInsert at h
  cases hg : (fetchProfilesCandidates allIds userId swipedIds)[idx]? with
  | none => rw [hg] at h; cases h
  | some t =>
    rw [hg] at h
    injection h with h'
    subst h'
    have ht : t ∈ fetchProfilesCandidates allIds userId swipedIds :=
      List.getElem?_mem hg
    unfold fetchProfilesCandidates at ht
    rw [List.mem_filter] at ht
    obtain ⟨-, hcond⟩ := ht
    simp at hcond
    exact ⟨rfl, fun he => hcond.1 he.symm⟩

/-- Witness for `discover_swipe_never_self`: with profiles `[1, 2]`,
user 1 and nothing swiped, the issued swipe is `1 likes 2`. -/
theorem discover_swipe_never_self_witness :
    (⟨1, 2, true⟩ : Swipe).user_id = 1 ∧
    (⟨1, 2, true⟩ : Swipe).user_id ≠ (⟨1, 2, true⟩ : Swipe).target_user_id :=
  discover_swipe_never_self [1, 2] [] 1 0 true ⟨1, 2, true⟩ (by decide)

/-- C6: the chat realtime handler leaves the list unchanged when the
inbound event's id is already present, appends the message at the end
when the id is new, and on the concrete scenario — fetch `[m1, m2]`, a
duplicate live event for `m2`, then a new `m3` — displays exactly
`[m1, m2, m3]`. -/
theorem chat_dedup_append (prev : List Message) (msg : Message) :
    ((∃ m ∈ prev, m.id = msg.id) → handleRealtimeInsert prev msg = prev) ∧
    ((∀ m ∈ prev, m.id ≠ msg.id) →
      handleRealtimeInsert prev msg = prev ++ [msg]) ∧
    (handleRealtimeInsert
        (handleRealtimeInsert
          [⟨1, 9, 10, "m1", 100⟩, ⟨2, 9, 11, "m2", 101⟩]
          ⟨2, 9, 11, "m2", 101⟩)
        ⟨3, 9, 10, "m3", 102⟩ =
      [⟨1, 9, 10, "m1", 100⟩, ⟨2, 9, 11, "m2", 101⟩,
        ⟨3, 9, 10, "m3", 102⟩]) := by
  refine ⟨?_, ?_, ?_⟩
  · rintro ⟨m, hm, hid⟩
    have hany : (prev.any fun m => m.id == msg.id) = true :=
      List.any_eq_true.mpr ⟨m, hm, by simp [hid]⟩
    simp [handleRealtimeInsert, hany]
  · intro h
    have hany : (prev.any fun m => m.id == msg.id) = false := by
      rw [List.any_eq_false]
      intro m hm
      simpa using h m hm
    simp [handleRealtimeInsert, hany]
  · rfl

/-- Witness for `chat_dedup_append`: the duplicate event for `m2` leaves
the fetched list `[m1, m2]` unchanged. -/
theorem chat_dedup_append_witness :
    handleRealtimeInsert
        [⟨1, 9, 10, "m1", 100⟩, ⟨2, 9, 11, "m2", 101⟩]
        ⟨2, 9, 11, "m2", 101⟩ =
      [⟨1, 9, 10, "m1", 100⟩, ⟨2, 9, 11, "m2", 101⟩] :=
  (chat_dedup_append [⟨1, 9, 10, "m1", 100⟩, ⟨2, 9, 11, "m2", 101⟩]
    ⟨2, 9, 11, "m2", 101⟩).1 ⟨⟨2, 9, 11, "m2", 101⟩, by simp, rfl⟩

instance (l : List Message) : Decidable (sortedByTimestamp l) := by
  unfold sortedByTimestamp List.Sorted
  infer_instance

instance (l : List Message) : Decidable (sortedByTimestampId l) := by
  unfold sortedByTimestampId List.Sorted
  infer_instance

/-- C7 [counterexample]: the displayed sequence is NOT always sorted by
timestamp (with or without the id tiebreak): a live event carrying an
earlier timestamp than a fetched message is appended at the end, yielding
the display `[t=5, t=3]`. The fetch sorts only the initial list, and the
realtime handler appends without re-sorting. -/
theorem chat_display_order_counterexample :
    ¬ sortedByTimestampId
      (handleRealtimeInsert (fetchMessages [⟨1, 9, 10, "m1", 5⟩] 9)
        ⟨2, 9, 11, "m2", 3⟩) ∧
    ¬ sortedByTimestamp
      (handleRealtimeInsert (fetchMessages [⟨1, 9, 10, "m1", 5⟩] 9)
        ⟨2, 9, 11, "m2", 3⟩) := by
  constructor <;> decide

/-- C7 [amended]: the initial fetch is sorted ascending by `created_at`
(no id tiebreak is applied anywhere), and appending a live event preserves
timestamp order exactly when the event's timestamp is at least that of
every displayed message. -/
theorem chat_display_order_amended (db : List Message) (mid : Nat)
    (prev : List Message) (msg : Message) :
    sortedByTimestamp (fetchMessages db mid) ∧
    (sortedByTimestamp prev → (∀ m ∈ prev, m.created_at ≤ msg.created_at) →
      sortedByTimestamp (handleRealtimeInsert prev msg)) := by
  constructor
  · exact List.sorted_insertionSort byCreatedAt _
  · intro hs hle
    unfold handleRealtimeInsert
    split
    · exact hs
    · unfold sortedByTimestamp List.Sorted at hs ⊢
      rw [List.pairwise_append]
      refine ⟨hs, List.pairwise_singleton _ _, ?_⟩
      intro m hm y hy
      rw [List.mem_singleton] at hy
      subst hy
      exact hle m hm

/-- Witness for `chat_display_order_amended`: fetching one message at
t = 5 and receiving a live event at t = 7 keeps the display sorted. -/
theorem chat_display_order_amended_witness :
    sortedByTimestamp
      (handleRealtimeInsert (fetchMessages [⟨1, 9, 10, "m1", 5⟩] 9)
        ⟨2, 9, 11, "m2", 7⟩) :=
  (chat_display_order_amended [⟨1, 9, 10, "m1", 5⟩] 9
      (fetchMessages [⟨1, 9, 10, "m1", 5⟩] 9) ⟨2, 9, 11, "m2", 7⟩).2
    (chat_display_order_amended [⟨1, 9, 10, "m1", 5⟩] 9
      (fetchMessages [⟨1, 9, 10, "m1", 5⟩] 9) ⟨2, 9, 11, "m2", 7⟩).1
    (by decide)

/-- C8: when the message insert fails, `sendMessage` restores the content
whose insert was attempted (the trimmed draft) into the input field,
reports the failure to the error tracker, leaves the message list exactly
as it was, and returns to the non-sending state. -/
theorem send_failure_restores_draft (st : ChatState) (mv : Bool)
    (hsending : st.sending = false)
    (hcontent : (jsTrim st.newMessage).isEmpty = false)
    (hschema : messageSchemaCheck (jsTrim st.newMessage) mv = true) :
    (sendMessage st mv true true).1.newMessage = jsTrim st.newMessage ∧
    (sendMessage st mv true true).1.messages = st.messages ∧
    (sendMessage st mv true true).1.sending = false ∧
    (sendMessage st mv true true).2 = true := by
  simp [sendMessage, hsending, hcontent, hschema]

/-- Witness for `send_failure_restores_draft` at the draft "hello". -/
theorem send_failure_restores_draft_witness :
    (sendMessage ⟨[], "hello", false⟩ true true true).1.newMessage =
      jsTrim "hello" ∧
    (sendMessage ⟨[], "hello", false⟩ true true true).1.messages = [] ∧
    (sendMessage ⟨[], "hello", false⟩ true true true).1.sending = false ∧
    (sendMessage ⟨[], "hello", false⟩ true true true).2 = true :=
  send_failure_restores_draft ⟨[], "hello", false⟩ true rfl (by decide)
    (by decide)

lemma find_id_of_nodup (data : List MatchData) (m : MatchData)
    (hm : m ∈ data) (hnodup : (data.map MatchData.id).Nodup) :
    data.find? (fun x => x.id == m.id) = some m := by
  induction data with
  | nil => cases hm
  | cons h t ih =>
    rw [List.map_cons, List.nodup_cons] at hnodup
    rcases List.mem_cons.mp hm with rfl | hmt
    · simp [List.find?_cons]
    · have hne : (h.id == m.id) = false := by
        rw [beq_eq_false_iff_ne]
        intro he
        exact hnodup.1 (he ▸ List.mem_map_of_mem MatchData.id hmt)
      rw [List.find?_cons, hne]
      exact ih hmt hnodup.2

lemma unread_fold (data : List MatchData) (userId : Nat) (m : MatchData)
    (hfind : data.find? (fun x => x.id == m.id) = some m) :
    ∀ (msgs : List MsgRow) (init : Nat → Nat),
      msgs.foldl (unreadStep data userId) init m.id =
        init m.id + msgs.countP (fun g =>
          g.match_id == m.id && g.sender_id == otherUserId m userId) := by
  intro msgs
  induction msgs with
  | nil => intro init; simp
  | cons g gs ih =>
    intro init
    rw [List.foldl_cons, List.countP_cons, ih (unreadStep data userId init g)]
    have hstep : unreadStep data userId init g m.id =
        init m.id + (if (g.match_id == m.id &&
          g.sender_id == otherUserId m userId) = true then 1 else 0) := by
      unfold unreadStep
      by_cases hgm : g.match_id = m.id
      · rw [hgm, hfind]
        by_cases hs : (g.sender_id == otherUserId m userId) = true
        · simp [hs]
        · simp [hs, Bool.eq_false_iff.mpr hs]
      · have hgm' : (m.id == g.match_id) = false :=
          beq_eq_false_iff_ne.mpr (Ne.symm hgm)
        have hgm'' : (g.match_id == m.id) = false :=
          beq_eq_false_iff_ne.mpr hgm
        cases hf : data.find? (fun x => x.id == g.match_id) with
        | none => simp [hgm'']
        | some mm =>
          by_cases hs : (g.sender_id == otherUserId mm userId) = true
          · simp [hs, hgm', hgm'']
          · simp [Bool.eq_false_iff.mpr hs, hgm'']
    omega

/-- C10: for every match in the aggregator's data whose id is unique and
of which the authenticated user is a participant, the reported unread
count is exactly the number of message rows of that match whose sender is
the other participant — a cumulative total with no read marker
subtracted — and the other participant is never the authenticated user,
so the user's own messages are never counted. -/
theorem unread_count_total_from_peer (data : List MatchData)
    (msgs : List MsgRow) (userId : Nat) (m : MatchData) (hm : m ∈ data)
    (hnodup : (data.map MatchData.id).Nodup)
    (hpart : m.user1_id = userId ∨ m.user2_id = userId)
    (hne : m.user1_id ≠ m.user2_id) :
    unreadCountByMatch data userId msgs m.id =
      msgs.countP (fun g =>
        g.match_id == m.id && g.sender_id == otherUserId m userId) ∧
    otherUserId m userId ≠ userId ∧
    (∀ g ∈ msgs, g.sender_id = userId →
      (g.match_id == m.id && g.sender_id == otherUserId m userId) = false) := by
  have hother : otherUserId m userId ≠ userId := by
    unfold otherUserId
    rcases hpart with h1 | h2
    · rw [if_pos (by simpa using h1)]
      omega
    · have h0 : m.user1_id ≠ userId := fun h0 =>
        hne (h0.trans h2.symm)
      rw [if_neg (by simpa using h0)]
      exact h0
  refine ⟨?_, hother, ?_⟩
  · have := unread_fold data userId m
      (find_id_of_nodup data m hm hnodup) msgs (fun _ => 0)
    simpa [unreadCountByMatch] using this
  · intro g _ hsender
    have : (g.sender_id == otherUserId m userId) = false := by
      rw [hsender, beq_eq_false_iff_ne]
      exact fun h => hother h.symm
    simp [this]

/-- Witness for `unread_count_total_from_peer`: match 9 between users 1
and 2; of the two messages, only the one sent by user 2 is counted for
user 1. -/
theorem unread_count_total_from_peer_witness :
    unreadCountByMatch [⟨9, 1, 2⟩] 1
        [⟨9, "hi", 100, 2⟩, ⟨9, "yo", 101, 1⟩] 9 =
      List.countP (fun g : MsgRow =>
        g.match_id == (9 : Nat) &&
          g.sender_id == otherUserId ⟨9, 1, 2⟩ 1)
        ([⟨9, "hi", 100, 2⟩, ⟨9, "yo", 101, 1⟩] : List MsgRow) :=
  (unread_count_total_from_peer [⟨9, 1, 2⟩]
    [⟨9, "hi", 100, 2⟩, ⟨9, "yo", 101, 1⟩] 1 ⟨9, 1, 2⟩ (by decide)
    (by decide) (Or.inl rfl) (by decide)).1

end KodoBashke
